import Mathlib

/-!
Shallow embedding of the burger-plant engine (`src/burger_system.c`,
`src/control_panel.c`) and proofs about its dispatch, FIFO, inventory and
control-plane operations.

Modelling conventions:
* C `int` fields become `Int` (so clamping at 0 is meaningful) except
  non-negative indices/counters, which become `Nat` where the code never
  lets them go negative by construction.
* Fixed-size C arrays paired with an explicit length become Lean lists;
  the circular order buffer of the FIFO becomes a function `Nat → Orden`
  indexed modulo `MAX_ORDENES`, exactly as the code indexes it.
* `printf`/log messages are modelled structurally: a `LogMsg` constructor
  per format string, carrying the formatted-in data.
* Mutex lock/unlock pairs delimit the atomic steps; the pure functions
  here are the state transformers those critical sections perform.
-/

namespace Burger

/-- `#define MAX_BANDAS 10` -/
def MAX_BANDAS : Nat := 10

/-- `#define MAX_INGREDIENTES 15` -/
def MAX_INGREDIENTES : Nat := 15

/-- `#define MAX_ORDENES 100` (FIFO capacity) -/
def MAX_ORDENES : Nat := 100

/-- `#define MAX_LOGS_POR_BANDA 10` -/
def MAX_LOGS_POR_BANDA : Nat := 10

/-- `#define CAPACIDAD_DISPENSADOR 10` (value in `burger_system.c`) -/
def CAPACIDAD_DISPENSADOR : Int := 10

/-- `#define UMBRAL_INVENTARIO_BAJO 2` -/
def UMBRAL_INVENTARIO_BAJO : Int := 2

/-- `#define TIEMPO_DEFAULT_INGREDIENTE 2` -/
def TIEMPO_DEFAULT_INGREDIENTE : Int := 2

/-- `#define TIEMPO_DEFAULT_NUEVA_ORDEN 7` -/
def TIEMPO_DEFAULT_NUEVA_ORDEN : Int := 7

/-- `ingredientes_base` : the 15 dispenser names every lane is initialized with. -/
def ingredientes_base : List String :=
  ["pan_inferior", "pan_superior", "carne", "queso", "tomate",
   "lechuga", "cebolla", "bacon", "mayonesa", "jalapenos",
   "aguacate", "vegetal", "salsa_bbq", "salsa_picante", "pepinillos"]

/-- `Ingrediente`: one dispenser, `(nombre, cantidad)`; its mutex is implicit
in the atomicity of each transformer below. -/
structure Ingrediente where
  nombre : String
  cantidad : Int
  deriving Repr, DecidableEq

/-- `Orden`: an order in flight. `ingredientes_solicitados` carries its own
length (`num_ingredientes` in C is the list length). -/
structure Orden where
  id_orden : Int
  tipo_hamburguesa : Int
  nombre_hamburguesa : String
  ingredientes_solicitados : List String
  tiempo_creacion : Int
  paso_actual : Nat
  completada : Bool
  asignada_a_banda : Int
  intentos_asignacion : Nat
  deriving Repr, DecidableEq

/-- `num_ingredientes` of an order is the length of its recipe list. -/
def Orden.num_ingredientes (o : Orden) : Nat := o.ingredientes_solicitados.length

/-- Log / console messages, one constructor per `printf`/`snprintf` format the
modelled code emits, carrying the data formatted into the string. -/
inductive LogMsg where
  | texto (s : String)
  | alertaSin (banda : Nat) (nombres : List String)
  | avisoReabastecimiento (banda : Nat)
  | asignada (nombre : String) (id : Int)
  | timeout (nombre : String) (id : Int)
  | iniciando (nombre : String) (id : Int)
  | agregando (nombre : String)
  | completadaMsg (nombre : String) (id : Int)
  deriving Repr, DecidableEq

/-- `LogEntry`: `(mensaje, timestamp, es_alerta)`. -/
structure LogEntry where
  mensaje : LogMsg
  timestamp : Int
  es_alerta : Bool
  deriving Repr, DecidableEq

/-- `Banda`: one preparation lane.  The pthread handle and sync primitives are
not data; the condition variable appears in the `CondVarId` alphabet below. -/
structure Banda where
  id : Nat
  activa : Bool
  pausada : Bool
  hamburguesas_procesadas : Nat
  procesando_orden : Bool
  orden_actual : Orden
  dispensadores : List Ingrediente
  logs : List LogEntry
  estado_actual : String
  ingrediente_actual : String
  necesita_reabastecimiento : Bool
  ultima_alerta_inventario : Int
  deriving Repr, DecidableEq

/-- `ColaFIFO`: circular buffer; `ordenes` is the backing array, read and
written only at indices reduced `% MAX_ORDENES` as in the code. -/
structure ColaFIFO where
  ordenes : Nat → Orden
  frente : Nat
  atras : Nat
  tamano : Nat

/-- Well-formedness the code maintains for the circular buffer: indices in
range and `atras` one past the last used slot. -/
def ColaWF (c : ColaFIFO) : Prop :=
  c.frente < MAX_ORDENES ∧ c.tamano ≤ MAX_ORDENES ∧
    c.atras = (c.frente + c.tamano) % MAX_ORDENES

/-- The queue's contents, front first: the abstraction of the circular buffer. -/
def colaToList (c : ColaFIFO) : List Orden :=
  (List.range c.tamano).map (fun k => c.ordenes ((c.frente + k) % MAX_ORDENES))

/-- `encolar_orden`: blocks while full (no state change until a slot frees);
once `tamano < MAX_ORDENES`, writes at `atras`, advances `atras` modulo
`MAX_ORDENES` and grows `tamano`. -/
def encolar_orden (c : ColaFIFO) (o : Orden) : ColaFIFO :=
  if c.tamano ≥ MAX_ORDENES then c
  else
    { ordenes := Function.update c.ordenes c.atras o
      frente := c.frente
      atras := (c.atras + 1) % MAX_ORDENES
      tamano := c.tamano + 1 }

/-- `desencolar_orden`: non-blocking; on an empty queue returns `none` and the
queue unchanged, else the front order, advancing `frente` and shrinking
`tamano`. -/
def desencolar_orden (c : ColaFIFO) : Option Orden × ColaFIFO :=
  if c.tamano = 0 then (none, c)
  else
    (some (c.ordenes c.frente),
     { ordenes := c.ordenes
       frente := (c.frente + 1) % MAX_ORDENES
       atras := c.atras
       tamano := c.tamano - 1 })

/-- Per-ingredient inner loop of `verificar_ingredientes_banda`: scan the
dispensers in order; at the first dispenser whose name equals the requested
ingredient, answer whether its count is positive (the C code returns 0 from
the whole function on `cantidad <= 0` and sets `encontrado`/breaks
otherwise); when no dispenser matches (`!encontrado`) answer false. -/
def buscar_ingrediente_disponible : List Ingrediente → String → Bool
  | [], _ => false
  | d :: rest, ing =>
    if d.nombre = ing then decide (0 < d.cantidad)
    else buscar_ingrediente_disponible rest ing

/-- `verificar_ingredientes_banda`: returns 1 iff the scan above succeeds for
every ingredient of the order's recipe. -/
def verificar_ingredientes_banda (banda : Banda) (orden : Orden) : Bool :=
  orden.ingredientes_solicitados.all
    (fun ing => buscar_ingrediente_disponible banda.dispensadores ing)

/-- `banda->activa && !banda->pausada && !banda->procesando_orden`, read under
the lane lock in `encontrar_banda_disponible`. -/
def banda_libre (b : Banda) : Bool :=
  b.activa && !b.pausada && !b.procesando_orden

/-- A lane is eligible for an order when it is free and passes the
ingredient check — the condition `encontrar_banda_disponible` tests. -/
def elegible (b : Banda) (o : Orden) : Bool :=
  banda_libre b && verificar_ingredientes_banda b o

/-- Loop body of `encontrar_banda_disponible`: `i` is the index of the head
of the remaining lane list. -/
def encontrar_banda_aux (orden : Orden) : List Banda → Nat → Int
  | [], _ => -1
  | b :: rest, i =>
    if elegible b orden then (i : Int)
    else encontrar_banda_aux orden rest (i + 1)

/-- `encontrar_banda_disponible`: index of the first free lane with all the
order's ingredients in stock, `-1` when none exists. -/
def encontrar_banda_disponible (bandas : List Banda) (orden : Orden) : Int :=
  encontrar_banda_aux orden bandas 0

/-- `agregar_log_banda`: append to the lane's bounded log; when the ring is
full, the entries are shifted left one slot (the oldest entry is dropped)
before the new entry is written at the end. -/
def agregar_log_banda (b : Banda) (mensaje : LogMsg) (es_alerta : Bool)
    (ahora : Int) : Banda :=
  let logs := if b.logs.length ≥ MAX_LOGS_POR_BANDA then b.logs.drop 1 else b.logs
  { b with logs := logs ++ [{ mensaje := mensaje, timestamp := ahora,
                              es_alerta := es_alerta }] }

/-- `verificar_inventario_banda`: one inventory check of a lane at time
`ahora`.  Debounced to one alert per 30 s; counts exhausted (`cantidad == 0`)
and low (`else if cantidad <= UMBRAL_INVENTARIO_BAJO`) dispensers in
dispenser order; emits the corresponding alert and flags, or clears
`necesita_reabastecimiento`. -/
def verificar_inventario_banda (ahora : Int) (b : Banda) : Banda :=
  if ahora - b.ultima_alerta_inventario < 30 then b
  else
    let agotados := b.dispensadores.filter (fun d => d.cantidad = 0)
    let num_bajos := (b.dispensadores.filter
      (fun d => decide (d.cantidad ≠ 0) &&
        decide (d.cantidad ≤ UMBRAL_INVENTARIO_BAJO))).length
    if 0 < agotados.length then
      let b1 := agregar_log_banda b
        (LogMsg.alertaSin (b.id + 1) (agotados.map Ingrediente.nombre)) true ahora
      { b1 with necesita_reabastecimiento := true,
                ultima_alerta_inventario := ahora }
    else if 3 ≤ num_bajos then
      let b1 := agregar_log_banda b
        (LogMsg.avisoReabastecimiento (b.id + 1)) true ahora
      { b1 with necesita_reabastecimiento := true,
                ultima_alerta_inventario := ahora }
    else
      { b with necesita_reabastecimiento := false }

/-- Inner loop of `consumir_ingredientes_banda`: find the first dispenser
whose name equals the requested ingredient and decrement it — only when its
count is positive (`if (cantidad > 0) cantidad--`); then break. -/
def consumir_uno : List Ingrediente → String → List Ingrediente
  | [], _ => []
  | d :: rest, ing =>
    if d.nombre = ing then
      (if 0 < d.cantidad then { d with cantidad := d.cantidad - 1 } else d) :: rest
    else d :: consumir_uno rest ing

/-- `consumir_ingredientes_banda`: for each recipe entry in order, decrement
its dispenser (clamped at 0). -/
def consumir_ingredientes_banda (disp : List Ingrediente) (recipe : List String) :
    List Ingrediente :=
  recipe.foldl consumir_uno disp

/-- The per-ingredient preparation loop of `procesar_orden`: for the `i`-th
ingredient, set `paso_actual = i + 1`, the display fields, and append an
"Agregando …" log; the dispensers are not touched here. -/
def bucle_preparacion (ahora : Int) : Banda → Orden → List String → Nat → Banda × Orden
  | b, o, [], _ => (b, o)
  | b, o, ing :: rest, i =>
    let o1 := { o with paso_actual := i + 1 }
    let b1 := agregar_log_banda
      { b with ingrediente_actual := ing,
               estado_actual := "AGREGANDO " ++ ing }
      (LogMsg.agregando ing) false ahora
    bucle_preparacion ahora b1 o1 rest (i + 1)

/-- `procesar_orden`: log INICIANDO, consume all recipe ingredients up front,
run the preparation loop, then finalize. -/
def procesar_orden (ahora : Int) (b : Banda) (o : Orden) : Banda × Orden :=
  let b1 := agregar_log_banda b
    (LogMsg.iniciando o.nombre_hamburguesa o.id_orden) false ahora
  let b2 := { b1 with dispensadores :=
    consumir_ingredientes_banda b1.dispensadores o.ingredientes_solicitados }
  let par := bucle_preparacion ahora b2 o o.ingredientes_solicitados 0
  let b4 := { par.1 with estado_actual := "FINALIZANDO " ++ o.nombre_hamburguesa }
  let b5 := agregar_log_banda b4 (LogMsg.texto "HAMBURGUESA LISTA!") false ahora
  (b5, par.2)

/-- Count read back through the first dispenser matching a name, the same
first-match convention `consumir_uno` and `buscar_ingrediente_disponible`
use. -/
def lookupCantidad : List Ingrediente → String → Option Int
  | [], _ => none
  | d :: rest, n => if d.nombre = n then some d.cantidad else lookupCantidad rest n

/-- The shared record (`DatosCompartidos`): lanes, FIFO, liveness flag,
counters and pacing parameters.  `consola` models the engine process's
stdout stream (`printf`). -/
structure DatosCompartidos where
  bandas : List Banda
  cola_espera : ColaFIFO
  sistema_activo : Bool
  total_ordenes_procesadas : Nat
  total_ordenes_generadas : Nat
  tiempo_por_ingrediente : Int
  tiempo_nueva_orden : Int
  consola : List LogMsg

/-- A fallback lane for out-of-range indexing; `asignador_step` only reads it
at indices `encontrar_banda_disponible` has validated. -/
def bandaFalsa : Banda :=
  { id := 0, activa := false, pausada := false, hamburguesas_procesadas := 0,
    procesando_orden := false,
    orden_actual :=
      { id_orden := 0, tipo_hamburguesa := 0, nombre_hamburguesa := "",
        ingredientes_solicitados := [], tiempo_creacion := 0, paso_actual := 0,
        completada := false, asignada_a_banda := -1, intentos_asignacion := 0 },
    dispensadores := [], logs := [], estado_actual := "", ingrediente_actual := "",
    necesita_reabastecimiento := false, ultima_alerta_inventario := 0 }

/-- One iteration of the `asignador_ordenes` loop body: try to dequeue; on
success bump `intentos_asignacion`, look for an eligible lane; either commit
the assignment to that lane, or re-enqueue (fewer than 20 attempts) or drop
with a TIMEOUT console message (20 or more). -/
def asignador_step (ahora : Int) (s : DatosCompartidos) : DatosCompartidos :=
  match desencolar_orden s.cola_espera with
  | (none, _) => s
  | (some o0, cola') =>
    let o := { o0 with intentos_asignacion := o0.intentos_asignacion + 1 }
    let r := encontrar_banda_disponible s.bandas o
    if 0 ≤ r then
      let i := r.toNat
      let banda := s.bandas.getD i bandaFalsa
      let banda' := agregar_log_banda
        { banda with procesando_orden := true,
                     orden_actual := { o with asignada_a_banda := (i : Int) },
                     estado_actual := "PREPARANDO " ++ o.nombre_hamburguesa }
        (LogMsg.asignada o.nombre_hamburguesa o.id_orden) false ahora
      { s with bandas := s.bandas.set i banda', cola_espera := cola' }
    else
      if o.intentos_asignacion < 20 then
        { s with cola_espera := encolar_orden cola' o }
      else
        { s with cola_espera := cola',
                 consola := s.consola ++
                   [LogMsg.timeout o.nombre_hamburguesa o.id_orden] }

/-- Dispensers as `inicializar_sistema` creates them: the 15 base names, each
filled to `CAPACIDAD_DISPENSADOR`. -/
def inicializar_dispensadores : List Ingrediente :=
  ingredientes_base.map (fun n => { nombre := n, cantidad := CAPACIDAD_DISPENSADOR })

/-- `reabastecer_banda`: set every dispenser to capacity, clear
`necesita_reabastecimiento` and the alert timestamp, log REABASTECIDA. -/
def reabastecer_banda (ahora : Int) (b : Banda) : Banda :=
  let b1 := { b with
    dispensadores := b.dispensadores.map
      (fun d => { d with cantidad := CAPACIDAD_DISPENSADOR }),
    necesita_reabastecimiento := false,
    ultima_alerta_inventario := 0 }
  agregar_log_banda b1 (LogMsg.texto "BANDA REABASTECIDA") false ahora

/-- In-place update of the dispenser at a given index. -/
def modifyIdx : List Ingrediente → Nat → (Ingrediente → Ingrediente) → List Ingrediente
  | [], _, _ => []
  | d :: rest, 0, f => f d :: rest
  | d :: rest, n + 1, f => d :: modifyIdx rest n f

/-- Control panel `'+'` on the selected dispenser: increment only when below
capacity. -/
def comando_mas (b : Banda) (sel : Nat) : Banda :=
  { b with
    dispensadores := modifyIdx b.dispensadores sel
      (fun d => if d.cantidad < CAPACIDAD_DISPENSADOR
        then { d with cantidad := d.cantidad + 1 } else d) }

/-- Control panel `'-'` on the selected dispenser: decrement only when above
zero. -/
def comando_menos (b : Banda) (sel : Nat) : Banda :=
  { b with
    dispensadores := modifyIdx b.dispensadores sel
      (fun d => if 0 < d.cantidad
        then { d with cantidad := d.cantidad - 1 } else d) }

/-- Control panel `'f'` on the selected dispenser: fill to capacity. -/
def comando_llenar (b : Banda) (sel : Nat) : Banda :=
  { b with
    dispensadores := modifyIdx b.dispensadores sel
      (fun d => { d with cantidad := CAPACIDAD_DISPENSADOR }) }

/-- The bounds invariant on one dispenser: `0 ≤ count ≤ CAPACITY`. -/
def dispensador_en_rango (d : Ingrediente) : Prop :=
  0 ≤ d.cantidad ∧ d.cantidad ≤ CAPACIDAD_DISPENSADOR

/-- The pause operation (`manejar_senal`, SIGUSR1 body; spec `pause_lane`):
set `pausada = 1`. -/
def pausar_banda (b : Banda) : Banda := { b with pausada := true }

/-- The resume operation (`manejar_senal`, SIGUSR2 per-lane body; spec
`resume_lane`): when the lane is paused, clear `pausada` and signal its
condition variable; the boolean reports whether the signal was sent. -/
def reanudar_banda (b : Banda) : Banda × Bool :=
  if b.pausada then ({ b with pausada := false }, true) else (b, false)

/-- `pausar_reanudar_banda` (control panel): toggle — resume-with-signal when
paused, else pause. -/
def pausar_reanudar_banda (b : Banda) : Banda × Bool :=
  if b.pausada then ({ b with pausada := false }, true)
  else ({ b with pausada := true }, false)

/-- The condition variables of the engine. -/
inductive CondVarId where
  | banda_condicion (i : Nat)
  | cola_no_vacia
  | cola_no_llena
  | nueva_orden
  deriving Repr, DecidableEq

/-- The condition variables `limpiar_sistema` broadcasts after clearing
`sistema_activo`: each lane's `condicion`, the FIFO's `no_vacia`, and
`nueva_orden`. -/
def limpiar_sistema_broadcasts (num_bandas : Nat) : List CondVarId :=
  ((List.range num_bandas).map CondVarId.banda_condicion) ++
    [CondVarId.cola_no_vacia, CondVarId.nueva_orden]

/-- The condition variable a producer inside `encolar_orden` waits on while
the FIFO is full. -/
def encolar_espera_en : CondVarId := CondVarId.cola_no_llena

/-- `isspace` for the characters C's `atoi` skips. -/
def esEspacio (c : Char) : Bool :=
  c = ' ' || c = '\t' || c = '\n' || c = '\r' ||
    c = Char.ofNat 11 || c = Char.ofNat 12

/-- Accumulate the leading decimal digits, stopping at the first non-digit. -/
def valorDigitos : List Char → Int → Int
  | [], acc => acc
  | c :: rest, acc =>
    if c.isDigit then valorDigitos rest (acc * 10 + ((c.toNat : Int) - 48))
    else acc

/-- C `atoi`: skip whitespace, optional sign, leading digits; 0 when no
digits. -/
def atoi (s : String) : Int :=
  match s.toList.dropWhile esEspacio with
  | '-' :: rest => - valorDigitos rest 0
  | '+' :: rest => valorDigitos rest 0
  | rest => valorDigitos rest 0

/-- Console output of `validar_parametros` / `mostrar_ayuda` /
`mostrar_menu_hamburguesas`, one constructor per message. -/
inductive SalidaMsg where
  | ayuda
  | menuMsg
  | errorBandas
  | errorFaltaBandas
  | errorTiempoIng
  | errorFaltaTiempoIng
  | errorTiempoOrden
  | errorFaltaTiempoOrden
  | desconocido (s : String)
  deriving Repr, DecidableEq

/-- The argument loop of `validar_parametros`, carrying the current values of
`*num_bandas`, `*tiempo_ingrediente`, `*tiempo_orden`.  Returns the parsed
configuration on success (`return 1`) or `none` (`return 0`), together with
everything printed. -/
def validar_parametros : List String → Int → Int → Int →
    Option (Int × Int × Int) × List SalidaMsg
  | [], n, t, o => (some (n, t, o), [])
  | a :: rest, n, t, o =>
    if a = "-h" || a = "--help" then (none, [SalidaMsg.ayuda])
    else if a = "-n" || a = "--bandas" then
      match rest with
      | [] => (none, [SalidaMsg.errorFaltaBandas])
      | v :: rest' =>
        let nv := atoi v
        if nv ≤ 0 || (MAX_BANDAS : Int) < nv then (none, [SalidaMsg.errorBandas])
        else validar_parametros rest' nv t o
    else if a = "-t" || a = "--tiempo-ingrediente" then
      match rest with
      | [] => (none, [SalidaMsg.errorFaltaTiempoIng])
      | v :: rest' =>
        let tv := atoi v
        if tv ≤ 0 || 60 < tv then (none, [SalidaMsg.errorTiempoIng])
        else validar_parametros rest' n tv o
    else if a = "-o" || a = "--tiempo-orden" then
      match rest with
      | [] => (none, [SalidaMsg.errorFaltaTiempoOrden])
      | v :: rest' =>
        let ov := atoi v
        if ov ≤ 0 || 300 < ov then (none, [SalidaMsg.errorTiempoOrden])
        else validar_parametros rest' n t ov
    else if a = "-m" || a = "--menu" then (none, [SalidaMsg.menuMsg])
    else (none, [SalidaMsg.desconocido a, SalidaMsg.ayuda])

/-- `validar_parametros` as `main` calls it: defaults 3 lanes, 2 s per
ingredient, 7 s between orders. -/
def validar_parametros_cli (argv : List String) :
    Option (Int × Int × Int) × List SalidaMsg :=
  validar_parametros argv 3 TIEMPO_DEFAULT_INGREDIENTE TIEMPO_DEFAULT_NUEVA_ORDEN

/-- The validation prefix of `main`: exit code and whether the engine was
started.  On a failed validation `main` does `return 0` before installing
signal handlers or spawning any thread; on success it initializes and runs
the engine (which also exits 0 on the normal path). -/
def main_valida (argv : List String) : Int × Bool :=
  match (validar_parametros_cli argv).1 with
  | none => (0, false)
  | some _ => (0, true)

/-- The lane's out-of-stock dispensers (`cantidad == 0`), in dispenser
order — the `out` count of the inventory check. -/
def agotados_de (b : Banda) : List Ingrediente :=
  b.dispensadores.filter (fun d => d.cantidad = 0)

/-- The number of low dispensers counted as the spec counts them
(`count ≤ LOW_THRESHOLD`, zeros included). -/
def bajos_de (b : Banda) : Nat :=
  (b.dispensadores.filter
    (fun d => decide (d.cantidad ≤ UMBRAL_INVENTARIO_BAJO))).length

/-- A concrete order (`generar_orden_especifica` with menu entry 0). -/
def ordenEjemplo : Orden :=
  { id_orden := 1, tipo_hamburguesa := 0, nombre_hamburguesa := "Clasica",
    ingredientes_solicitados :=
      ["pan_inferior", "carne", "lechuga", "tomate", "pan_superior"],
    tiempo_creacion := 0, paso_actual := 0, completada := false,
    asignada_a_banda := -1, intentos_asignacion := 0 }

/-- A lane as `inicializar_sistema` builds it. -/
def bandaEjemplo : Banda :=
  { bandaFalsa with activa := true, dispensadores := inicializar_dispensadores }

/-- `bandaEjemplo` with the paused flag already set. -/
def bandaPausadaEjemplo : Banda := { bandaEjemplo with pausada := true }

/-- An empty queue. -/
def colaVacia : ColaFIFO :=
  { ordenes := fun _ => ordenEjemplo, frente := 0, atras := 0, tamano := 0 }

/-- A queue holding exactly one order. -/
def colaConOrden : ColaFIFO :=
  { ordenes := fun _ => ordenEjemplo, frente := 0, atras := 1, tamano := 1 }

/-- A shared record with no lanes and one queued order. -/
def datosEjemplo : DatosCompartidos :=
  { bandas := [], cola_espera := colaConOrden, sistema_activo := true,
    total_ordenes_procesadas := 0, total_ordenes_generadas := 1,
    tiempo_por_ingrediente := 2, tiempo_nueva_orden := 7, consola := [] }

instance : DecidablePred dispensador_en_rango := fun d =>
  decidable_of_iff (0 ≤ d.cantidad ∧ d.cantidad ≤ CAPACIDAD_DISPENSADOR) Iff.rfl

-- ═══ Proofs ═══

lemma encolar_wf {c : ColaFIFO} (h : ColaWF c) (o : Orden) :
    ColaWF (encolar_orden c o) := by
  obtain ⟨hf, ht, ha⟩ := h
  unfold encolar_orden
  simp only [ColaWF, MAX_ORDENES] at *
  by_cases hfull : c.tamano ≥ 100
  · simpa [hfull] using ⟨hf, ht, ha⟩
  · simp only [hfull, if_false]
    refine ⟨hf, by omega, ?_⟩
    simp only [ha]
    omega

lemma desencolar_wf {c : ColaFIFO} (h : ColaWF c) :
    ColaWF (desencolar_orden c).2 := by
  obtain ⟨hf, ht, ha⟩ := h
  simp only [MAX_ORDENES] at hf ht ha
  unfold desencolar_orden ColaWF MAX_ORDENES
  by_cases hz : c.tamano = 0
  · rw [if_pos hz]
    dsimp only
    omega
  · rw [if_neg hz]
    dsimp only
    omega

lemma encolar_toList {c : ColaFIFO} (h : ColaWF c) (hlt : c.tamano < MAX_ORDENES)
    (o : Orden) : colaToList (encolar_orden c o) = colaToList c ++ [o] := by
  obtain ⟨hf, ht, ha⟩ := h
  simp only [MAX_ORDENES] at hf ht hlt
  have hfull : ¬ c.tamano ≥ MAX_ORDENES := by simp only [MAX_ORDENES]; omega
  unfold encolar_orden colaToList
  simp only [hfull, if_false]
  rw [List.range_succ, List.map_append, List.map_cons, List.map_nil]
  congr 1
  · refine List.map_congr_left fun k hk => ?_
    rw [List.mem_range] at hk
    have hne : (c.frente + k) % MAX_ORDENES ≠ c.atras := by
      rw [ha]
      simp only [MAX_ORDENES]
      omega
    simp [Function.update, hne]
  · rw [ha.symm]
    simp [Function.update]

lemma colaToList_length (c : ColaFIFO) : (colaToList c).length = c.tamano := by
  simp [colaToList]

lemma desencolar_toList {c : ColaFIFO} (h : ColaWF c) (hz : c.tamano ≠ 0) :
    (desencolar_orden c).1 = (colaToList c).head? ∧
    colaToList (desencolar_orden c).2 = (colaToList c).tail := by
  obtain ⟨hf, ht, ha⟩ := h
  obtain ⟨t, hsz⟩ : ∃ t, c.tamano = t + 1 := ⟨c.tamano - 1, by omega⟩
  unfold desencolar_orden colaToList
  rw [if_neg hz]
  dsimp only
  rw [hsz, List.range_succ_eq_map]
  simp only [List.map_cons, List.map_map, Nat.add_sub_cancel, List.head?_cons,
    List.tail_cons]
  constructor
  · rw [Nat.add_zero, Nat.mod_eq_of_lt hf]
  · refine List.map_congr_left fun k _ => ?_
    simp only [Function.comp]
    congr 1
    rw [Nat.mod_add_mod]
    have harith : c.frente + k.succ = c.frente + 1 + k := by omega
    rw [harith]

/-- `drain c n`: perform `n` successive `try_dequeue` operations, keeping the
queue. -/
def drain (c : ColaFIFO) : Nat → ColaFIFO
  | 0 => c
  | n + 1 => drain (desencolar_orden c).2 n

lemma drain_toList {n : Nat} :
    ∀ {c : ColaFIFO} {l₁ l₂ : List Orden}, ColaWF c →
      colaToList c = l₁ ++ l₂ → l₁.length = n →
      ColaWF (drain c n) ∧ colaToList (drain c n) = l₂ := by
  induction n with
  | zero =>
    intro c l₁ l₂ hwf hl hlen
    rw [List.length_eq_zero] at hlen
    subst hlen
    exact ⟨hwf, by simpa using hl⟩
  | succ n ih =>
    intro c l₁ l₂ hwf hl hlen
    match l₁, hlen with
    | x :: l₁, hlen =>
      have hz : c.tamano ≠ 0 := by
        have := colaToList_length c
        rw [hl] at this
        simp at this
        omega
      obtain ⟨_, htail⟩ := desencolar_toList hwf hz
      rw [hl] at htail
      simp only [List.cons_append, List.tail_cons] at htail
      exact ih (desencolar_wf hwf) htail (by simpa using hlen)

/-- C7.  The FIFO is order-preserving: enqueuing an order `o` on any
well-formed non-full queue and dequeuing once the earlier entries have all
been dequeued returns exactly `o` (hence equal id and recipe); and
`try_dequeue` on an empty queue reports empty and leaves the queue
unchanged. -/
theorem encolar_desencolar_roundtrip (c : ColaFIFO) (o : Orden)
    (hwf : ColaWF c) (hlt : c.tamano < MAX_ORDENES) :
    (desencolar_orden (drain (encolar_orden c o) c.tamano)).1 = some o ∧
    ((desencolar_orden (drain (encolar_orden c o) c.tamano)).1.map
        Orden.id_orden = some o.id_orden) ∧
    ((desencolar_orden (drain (encolar_orden c o) c.tamano)).1.map
        Orden.ingredientes_solicitados = some o.ingredientes_solicitados) ∧
    (∀ c' : ColaFIFO, c'.tamano = 0 → desencolar_orden c' = (none, c')) := by
  have henq := encolar_toList hwf hlt o
  have hwf' := encolar_wf hwf o
  have hlen : (colaToList c).length = c.tamano := colaToList_length c
  obtain ⟨hwfd, hd⟩ := drain_toList hwf' henq hlen
  have hz : (drain (encolar_orden c o) c.tamano).tamano ≠ 0 := by
    have := colaToList_length (drain (encolar_orden c o) c.tamano)
    rw [hd] at this
    simp at this
    omega
  obtain ⟨hhead, _⟩ := desencolar_toList hwfd hz
  rw [hd] at hhead
  simp only [List.head?_cons] at hhead
  refine ⟨hhead, by rw [hhead]; rfl, by rw [hhead]; rfl, ?_⟩
  intro c' hc'
  unfold desencolar_orden
  rw [if_pos hc']

lemma encontrar_aux_nonneg (o : Orden) (bs : List Banda) :
    ∀ k : Nat, encontrar_banda_aux o bs k = -1 ∨
      (k : Int) ≤ encontrar_banda_aux o bs k := by
  induction bs with
  | nil => intro k; left; rfl
  | cons b rest ih =>
    intro k
    unfold encontrar_banda_aux
    by_cases he : elegible b o = true
    · rw [if_pos he]; right; exact le_refl _
    · rw [if_neg he]
      rcases ih (k + 1) with h | h
      · left; exact h
      · right
        refine le_trans ?_ h
        push_cast
        omega

lemma encontrar_aux_shift (o : Orden) (bs : List Banda) :
    ∀ k : Nat, encontrar_banda_aux o bs k =
      if encontrar_banda_aux o bs 0 = -1 then -1
      else encontrar_banda_aux o bs 0 + k := by
  induction bs with
  | nil => intro k; rfl
  | cons b rest ih =>
    intro k
    unfold encontrar_banda_aux
    by_cases he : elegible b o = true
    · rw [if_pos he, if_pos he]
      norm_num
    · rw [if_neg he, if_neg he]
      rw [ih (k + 1), ih 1]
      by_cases h0 : encontrar_banda_aux o rest 0 = -1
      · simp [h0]
      · rw [if_neg h0, if_neg h0]
        push_cast
        have hge : (0 : Int) ≤ encontrar_banda_aux o rest 0 := by
          rcases encontrar_aux_nonneg o rest 0 with h | h
          · exact absurd h h0
          · exact h
        have hne : ¬ encontrar_banda_aux o rest 0 + 1 = -1 := by omega
        rw [if_neg hne]
        ring

lemma encontrar_cons (b : Banda) (bs : List Banda) (o : Orden) :
    encontrar_banda_disponible (b :: bs) o =
      if elegible b o then 0
      else if encontrar_banda_disponible bs o = -1 then -1
      else encontrar_banda_disponible bs o + 1 := by
  unfold encontrar_banda_disponible
  have hstep : encontrar_banda_aux o (b :: bs) 0 =
      if elegible b o then ((0 : Nat) : Int) else encontrar_banda_aux o bs 1 := rfl
  rw [hstep]
  by_cases he : elegible b o = true
  · rw [if_pos he, if_pos he]
    norm_num
  · rw [if_neg he, if_neg he]
    have h := encontrar_aux_shift o bs 1
    push_cast at h
    exact h

lemma encontrar_nonneg_of_ne (bandas : List Banda) (o : Orden)
    (h : encontrar_banda_disponible bandas o ≠ -1) :
    0 ≤ encontrar_banda_disponible bandas o := by
  rcases encontrar_aux_nonneg o bandas 0 with h' | h'
  · exact absurd h' h
  · simpa using h'

lemma encontrar_eq_neg_one_iff (bandas : List Banda) (o : Orden) :
    encontrar_banda_disponible bandas o = -1 ↔
      ∀ b ∈ bandas, elegible b o = false := by
  induction bandas with
  | nil => simp [encontrar_banda_disponible, encontrar_banda_aux]
  | cons b bs ih =>
    rw [encontrar_cons]
    by_cases he : elegible b o = true
    · rw [if_pos he]
      refine iff_of_false (by norm_num) ?_
      intro hall
      have := hall b (List.mem_cons_self b bs)
      rw [he] at this
      exact Bool.true_eq_false.mp this
    · rw [if_neg he]
      by_cases h0 : encontrar_banda_disponible bs o = -1
      · rw [if_pos h0]
        refine iff_of_true rfl ?_
        intro x hx
        rcases List.mem_cons.mp hx with hx | hx
        · subst hx
          exact Bool.eq_false_iff.mpr he
        · exact (ih.mp h0) x hx
      · rw [if_neg h0]
        have hge := encontrar_nonneg_of_ne bs o h0
        refine iff_of_false (by omega) ?_
        intro hall
        exact h0 (ih.mpr fun x hx => hall x (List.mem_cons_of_mem b hx))

lemma encontrar_eq_index_iff (o : Orden) :
    ∀ (bandas : List Banda) (i : Nat) (hi : i < bandas.length),
      encontrar_banda_disponible bandas o = (i : Int) ↔
        elegible (bandas.get ⟨i, hi⟩) o = true ∧
        ∀ (j : Nat) (hj : j < i),
          elegible (bandas.get ⟨j, lt_trans hj hi⟩) o = false := by
  intro bandas
  induction bandas with
  | nil => intro i hi; simp at hi
  | cons b bs ih =>
    intro i hi
    rw [encontrar_cons]
    by_cases he : elegible b o = true
    · rw [if_pos he]
      cases i with
      | zero =>
        refine iff_of_true (by norm_num) ⟨he, ?_⟩
        intro j hj
        exact absurd hj (Nat.not_lt_zero j)
      | succ n =>
        refine iff_of_false (by push_cast; omega) ?_
        rintro ⟨_, hprev⟩
        have h0 : elegible b o = false := hprev 0 (Nat.succ_pos n)
        rw [he] at h0
        exact Bool.true_eq_false.mp h0
    · rw [if_neg he]
      have hbf : elegible b o = false := Bool.eq_false_iff.mpr he
      cases i with
      | zero =>
        refine iff_of_false ?_ ?_
        · by_cases h0 : encontrar_banda_disponible bs o = -1
          · rw [if_pos h0]; norm_num
          · rw [if_neg h0]
            have hge := encontrar_nonneg_of_ne bs o h0
            push_cast
            omega
        · rintro ⟨hel, _⟩
          have hel' : elegible b o = true := hel
          exact he hel'
      | succ n =>
        have hn : n < bs.length := by
          simp only [List.length_cons] at hi
          omega
        by_cases h0 : encontrar_banda_disponible bs o = -1
        · rw [if_pos h0]
          refine iff_of_false (by push_cast; omega) ?_
          rintro ⟨hel, _⟩
          have hall := (encontrar_eq_neg_one_iff bs o).mp h0
          have hfalse := hall _ (bs.get_mem n hn)
          have hel' : elegible (bs.get ⟨n, hn⟩) o = true := hel
          rw [hfalse] at hel'
          exact Bool.false_eq_true.mp hel'
        · rw [if_neg h0]
          have hshift : (encontrar_banda_disponible bs o + 1 = ((n + 1 : Nat) : Int))
              ↔ encontrar_banda_disponible bs o = (n : Int) := by
            push_cast
            omega
          rw [hshift, ih n hn]
          constructor
          · rintro ⟨hel, hprev⟩
            refine ⟨hel, ?_⟩
            intro j hj
            cases j with
            | zero => exact hbf
            | succ m => exact hprev m (by omega)
          · rintro ⟨hel, hprev⟩
            refine ⟨hel, ?_⟩
            intro m hm
            exact hprev (m + 1) (by omega)

/-- C2.  The dispatcher scans lanes in increasing index order: the result of
`encontrar_banda_disponible` is `-1` exactly when no lane is eligible
(active, not paused, idle and stocked for the whole recipe), and it equals
an index `i` exactly when lane `i` is eligible and every lower-indexed lane
is not — when several lanes are eligible the lowest index wins. -/
theorem encontrar_banda_scan_order (bandas : List Banda) (o : Orden) :
    (encontrar_banda_disponible bandas o = -1 ↔
      ∀ b ∈ bandas, elegible b o = false) ∧
    (∀ (i : Nat) (hi : i < bandas.length),
      encontrar_banda_disponible bandas o = (i : Int) ↔
        elegible (bandas.get ⟨i, hi⟩) o = true ∧
        ∀ (j : Nat) (hj : j < i),
          elegible (bandas.get ⟨j, lt_trans hj hi⟩) o = false) :=
  ⟨encontrar_eq_neg_one_iff bandas o, encontrar_eq_index_iff o bandas⟩

lemma buscar_eq_exists {disp : List Ingrediente}
    (hnodup : (disp.map Ingrediente.nombre).Nodup) (ing : String) :
    buscar_ingrediente_disponible disp ing = true ↔
      ∃ d ∈ disp, d.nombre = ing ∧ 0 < d.cantidad := by
  induction disp with
  | nil => simp [buscar_ingrediente_disponible]
  | cons d rest ih =>
    rw [List.map_cons, List.nodup_cons] at hnodup
    obtain ⟨hnotin, hrest⟩ := hnodup
    unfold buscar_ingrediente_disponible
    by_cases hname : d.nombre = ing
    · rw [if_pos hname]
      simp only [decide_eq_true_eq]
      constructor
      · intro h
        exact ⟨d, List.mem_cons_self d rest, hname, h⟩
      · rintro ⟨d', hd', hn', hc'⟩
        rcases List.mem_cons.mp hd' with h | h
        · subst h
          exact hc'
        · exfalso
          apply hnotin
          rw [← hname] at hn'
          rw [← hn']
          exact List.mem_map_of_mem Ingrediente.nombre h
    · rw [if_neg hname]
      rw [ih hrest]
      constructor
      · rintro ⟨d', hd', hn', hc'⟩
        exact ⟨d', List.mem_cons_of_mem d hd', hn', hc'⟩
      · rintro ⟨d', hd', hn', hc'⟩
        rcases List.mem_cons.mp hd' with h | h
        · subst h
          exact absurd hn' hname
        · exact ⟨d', h, hn', hc'⟩

lemma buscar_not_found {disp : List Ingrediente} {ing : String}
    (h : ∀ d ∈ disp, d.nombre ≠ ing) :
    buscar_ingrediente_disponible disp ing = false := by
  induction disp with
  | nil => rfl
  | cons d rest ih =>
    unfold buscar_ingrediente_disponible
    rw [if_neg (h d (List.mem_cons_self d rest))]
    exact ih fun d' hd' => h d' (List.mem_cons_of_mem d hd')

/-- C10.  The lane ingredient check succeeds iff every recipe ingredient is
the name of some dispenser of the lane with a positive count (dispenser
names being distinct, as every lane the program builds has them); in
particular a recipe naming an ingredient no dispenser carries always makes
the check fail. -/
theorem verificar_ingredientes_iff (b : Banda) (o : Orden)
    (hnodup : (b.dispensadores.map Ingrediente.nombre).Nodup) :
    (verificar_ingredientes_banda b o = true ↔
      ∀ ing ∈ o.ingredientes_solicitados,
        ∃ d ∈ b.dispensadores, d.nombre = ing ∧ 0 < d.cantidad) ∧
    (∀ ing ∈ o.ingredientes_solicitados,
      (∀ d ∈ b.dispensadores, d.nombre ≠ ing) →
        verificar_ingredientes_banda b o = false) := by
  constructor
  · unfold verificar_ingredientes_banda
    rw [List.all_eq_true]
    constructor
    · intro h ing hing
      exact (buscar_eq_exists hnodup ing).mp (h ing hing)
    · intro h ing hing
      exact (buscar_eq_exists hnodup ing).mpr (h ing hing)
  · intro ing hing hnone
    unfold verificar_ingredientes_banda
    rw [Bool.eq_false_iff]
    intro hall
    rw [List.all_eq_true] at hall
    have := hall ing hing
    rw [buscar_not_found hnone] at this
    exact Bool.false_eq_true.mp this

lemma consumir_uno_lookup_self (disp : List Ingrediente) (ing : String) :
    lookupCantidad (consumir_uno disp ing) ing =
      (lookupCantidad disp ing).map (fun c => if 0 < c then c - 1 else c) := by
  induction disp with
  | nil => rfl
  | cons d rest ih =>
    unfold consumir_uno
    by_cases h : d.nombre = ing
    · rw [if_pos h]
      by_cases hc : 0 < d.cantidad
      · rw [if_pos hc]
        simp [lookupCantidad, h, hc]
      · rw [if_neg hc]
        simp [lookupCantidad, h, hc]
    · rw [if_neg h]
      have hl1 : lookupCantidad (d :: consumir_uno rest ing) ing
          = lookupCantidad (consumir_uno rest ing) ing := by
        simp [lookupCantidad, h]
      have hl2 : lookupCantidad (d :: rest) ing = lookupCantidad rest ing := by
        simp [lookupCantidad, h]
      rw [hl1, hl2]
      exact ih

lemma consumir_uno_lookup_ne (disp : List Ingrediente) {m ing : String}
    (h : m ≠ ing) :
    lookupCantidad (consumir_uno disp ing) m = lookupCantidad disp m := by
  induction disp with
  | nil => rfl
  | cons d rest ih =>
    unfold consumir_uno
    by_cases hd : d.nombre = ing
    · rw [if_pos hd]
      have hdm : ¬ d.nombre = m := by
        rw [hd]
        exact fun he => h he.symm
      by_cases hc : 0 < d.cantidad
      · rw [if_pos hc]
        simp [lookupCantidad, hdm]
      · rw [if_neg hc]
    · rw [if_neg hd]
      by_cases hdm : d.nombre = m
      · simp [lookupCantidad, hdm]
      · have hl1 : lookupCantidad (d :: consumir_uno rest ing) m
            = lookupCantidad (consumir_uno rest ing) m := by
          simp [lookupCantidad, hdm]
        have hl2 : lookupCantidad (d :: rest) m = lookupCantidad rest m := by
          simp [lookupCantidad, hdm]
        rw [hl1, hl2]
        exact ih

lemma consumir_lookup (n : String) :
    ∀ (recipe : List String) (disp : List Ingrediente) (c : Int),
      0 ≤ c → lookupCantidad disp n = some c →
      lookupCantidad (consumir_ingredientes_banda disp recipe) n =
        some (max (c - recipe.count n) 0) := by
  intro recipe
  induction recipe with
  | nil =>
    intro disp c hc0 hl
    unfold consumir_ingredientes_banda
    simp only [List.foldl_nil, List.count_nil, Nat.cast_zero, sub_zero]
    rw [hl]
    congr 1
    omega
  | cons r rest ih =>
    intro disp c hc0 hl
    have hfold : consumir_ingredientes_banda disp (r :: rest) =
        consumir_ingredientes_banda (consumir_uno disp r) rest := rfl
    rw [hfold]
    by_cases hr : r = n
    · subst hr
      have hstep : lookupCantidad (consumir_uno disp r) r
          = some (if 0 < c then c - 1 else c) := by
        rw [consumir_uno_lookup_self disp r, hl]
        rfl
      have hnext := ih (consumir_uno disp r) (if 0 < c then c - 1 else c)
        (by split <;> omega) hstep
      rw [hnext]
      have hcount : (((r :: rest).count r : Nat) : Int) = (rest.count r : Int) + 1 := by
        rw [List.count_cons_self]
        push_cast
        ring
      have heq : max ((if 0 < c then c - 1 else c) - (rest.count r : Int)) 0
          = max (c - ((rest.count r : Int) + 1)) 0 := by
        by_cases hc : 0 < c
        · rw [if_pos hc]
          omega
        · rw [if_neg hc]
          omega
      rw [hcount, heq]
    · have hn2 : lookupCantidad (consumir_uno disp r) n = some c := by
        rw [consumir_uno_lookup_ne disp (fun he => hr he.symm)]
        exact hl
      rw [ih (consumir_uno disp r) c hc0 hn2]
      have hcount : (r :: rest).count n = rest.count n := by
        rw [List.count_cons]
        simp [hr]
      rw [hcount]

lemma consumir_uno_pred {P : Ingrediente → Prop}
    (hstep : ∀ d : Ingrediente, P d → 0 < d.cantidad →
      P { d with cantidad := d.cantidad - 1 }) :
    ∀ (disp : List Ingrediente) (ing : String), (∀ d ∈ disp, P d) →
      ∀ d ∈ consumir_uno disp ing, P d := by
  intro disp
  induction disp with
  | nil => intro ing _ d hd; simp [consumir_uno] at hd
  | cons d0 rest ih =>
    intro ing hall d hd
    unfold consumir_uno at hd
    by_cases hn : d0.nombre = ing
    · rw [if_pos hn] at hd
      rcases List.mem_cons.mp hd with h | h
      · subst h
        by_cases hc : 0 < d0.cantidad
        · rw [if_pos hc]
          exact hstep d0 (hall d0 (List.mem_cons_self d0 rest)) hc
        · rw [if_neg hc]
          exact hall d0 (List.mem_cons_self d0 rest)
      · exact hall d (List.mem_cons_of_mem d0 h)
    · rw [if_neg hn] at hd
      rcases List.mem_cons.mp hd with h | h
      · subst h
        exact hall d (List.mem_cons_self d rest)
      · exact ih ing (fun x hx => hall x (List.mem_cons_of_mem d0 hx)) d h

lemma consumir_pred {P : Ingrediente → Prop}
    (hstep : ∀ d : Ingrediente, P d → 0 < d.cantidad →
      P { d with cantidad := d.cantidad - 1 }) :
    ∀ (recipe : List String) (disp : List Ingrediente), (∀ d ∈ disp, P d) →
      ∀ d ∈ consumir_ingredientes_banda disp recipe, P d := by
  intro recipe
  induction recipe with
  | nil => intro disp hall; exact hall
  | cons r rest ih =>
    intro disp hall
    exact ih (consumir_uno disp r) (consumir_uno_pred hstep disp r hall)

lemma agregar_log_dispensadores (b : Banda) (m : LogMsg) (ea : Bool) (ts : Int) :
    (agregar_log_banda b m ea ts).dispensadores = b.dispensadores := rfl

lemma bucle_preparacion_dispensadores (ahora : Int) :
    ∀ (l : List String) (b : Banda) (o : Orden) (i : Nat),
      (bucle_preparacion ahora b o l i).1.dispensadores = b.dispensadores := by
  intro l
  induction l with
  | nil => intro b o i; rfl
  | cons ing rest ih =>
    intro b o i
    unfold bucle_preparacion
    rw [ih]
    rfl

lemma bucle_preparacion_paso (ahora : Int) :
    ∀ (l : List String) (b : Banda) (o : Orden) (i : Nat), l ≠ [] →
      (bucle_preparacion ahora b o l i).2.paso_actual = i + l.length := by
  intro l
  induction l with
  | nil => intro b o i h; exact absurd rfl h
  | cons ing rest ih =>
    intro b o i _
    unfold bucle_preparacion
    by_cases hr : rest = []
    · subst hr
      simp [bucle_preparacion]
    · rw [ih _ _ (i + 1) hr]
      simp only [List.length_cons]
      omega

/-- C3.  Processing an assigned order consumes the recipe up front — the
preparation loop touches no dispenser — decrementing the first-matching
dispenser once per recipe entry, clamped at zero (a dispenser at 0 stays
at 0), while the order's `paso_actual` still advances to the full recipe
length; counts never go negative. -/
theorem procesar_orden_consume_up_front (ahora : Int) (b : Banda) (o : Orden)
    (hne : o.ingredientes_solicitados ≠ [])
    (n : String) (c : Int)
    (hc : lookupCantidad b.dispensadores n = some c) (hc0 : 0 ≤ c) :
    ((procesar_orden ahora b o).1.dispensadores =
      consumir_ingredientes_banda b.dispensadores o.ingredientes_solicitados) ∧
    (∀ (b' : Banda) (o' : Orden) (l : List String) (i : Nat),
      (bucle_preparacion ahora b' o' l i).1.dispensadores = b'.dispensadores) ∧
    (lookupCantidad (procesar_orden ahora b o).1.dispensadores n =
      some (max (c - o.ingredientes_solicitados.count n) 0)) ∧
    (c = 0 → lookupCantidad (procesar_orden ahora b o).1.dispensadores n = some 0) ∧
    ((procesar_orden ahora b o).2.paso_actual = o.num_ingredientes) ∧
    ((∀ d ∈ b.dispensadores, 0 ≤ d.cantidad) →
      ∀ d ∈ (procesar_orden ahora b o).1.dispensadores, 0 ≤ d.cantidad) := by
  have hdisp : (procesar_orden ahora b o).1.dispensadores =
      consumir_ingredientes_banda b.dispensadores o.ingredientes_solicitados := by
    unfold procesar_orden
    dsimp only
    rw [bucle_preparacion_dispensadores]
    rfl
  have hlook : lookupCantidad (procesar_orden ahora b o).1.dispensadores n =
      some (max (c - o.ingredientes_solicitados.count n) 0) := by
    rw [hdisp]
    exact consumir_lookup n o.ingredientes_solicitados b.dispensadores c hc0 hc
  refine ⟨hdisp, fun b' o' l i => bucle_preparacion_dispensadores ahora l b' o' i,
    hlook, ?_, ?_, ?_⟩
  · intro hzero
    rw [hlook, hzero]
    congr 1
    omega
  · unfold procesar_orden
    dsimp only
    rw [bucle_preparacion_paso ahora _ _ _ _ hne]
    simp [Orden.num_ingredientes]
  · intro hall
    rw [hdisp]
    refine consumir_pred ?_ o.ingredientes_solicitados b.dispensadores hall
    intro d _ hc1
    dsimp only
    omega

lemma modifyIdx_pred {P : Ingrediente → Prop} {f : Ingrediente → Ingrediente}
    (hf : ∀ d : Ingrediente, P d → P (f d)) :
    ∀ (l : List Ingrediente) (i : Nat), (∀ d ∈ l, P d) →
      ∀ d ∈ modifyIdx l i f, P d := by
  intro l
  induction l with
  | nil => intro i _ d hd; simp [modifyIdx] at hd
  | cons d0 rest ih =>
    intro i hall d hd
    cases i with
    | zero =>
      rcases List.mem_cons.mp hd with h | h
      · subst h
        exact hf d0 (hall d0 (List.mem_cons_self d0 rest))
      · exact hall d (List.mem_cons_of_mem d0 h)
    | succ n =>
      rcases List.mem_cons.mp hd with h | h
      · subst h
        exact hall d (List.mem_cons_self d rest)
      · exact ih n (fun x hx => hall x (List.mem_cons_of_mem d0 hx)) d h

lemma rango_capacidad : dispensador_en_rango
    { nombre := "", cantidad := CAPACIDAD_DISPENSADOR } := by
  constructor <;> norm_num [CAPACIDAD_DISPENSADOR]

/-- C4.  Every mutation of a dispenser count keeps `0 ≤ count ≤ CAPACITY`:
initialization and replenish set exactly `CAPACIDAD_DISPENSADOR`, the worker
decrements only positive counts, and the control panel's `+`/`-`/fill
adjustments respect both bounds. -/
theorem dispensadores_en_rango (ahora : Int) (b : Banda) (sel : Nat)
    (recipe : List String)
    (hb : ∀ d ∈ b.dispensadores, dispensador_en_rango d) :
    (∀ d ∈ inicializar_dispensadores, dispensador_en_rango d) ∧
    (∀ d ∈ (reabastecer_banda ahora b).dispensadores, dispensador_en_rango d) ∧
    (∀ d ∈ consumir_ingredientes_banda b.dispensadores recipe,
      dispensador_en_rango d) ∧
    (∀ d ∈ (comando_mas b sel).dispensadores, dispensador_en_rango d) ∧
    (∀ d ∈ (comando_menos b sel).dispensadores, dispensador_en_rango d) ∧
    (∀ d ∈ (comando_llenar b sel).dispensadores, dispensador_en_rango d) := by
  have hcap : (0 : Int) ≤ CAPACIDAD_DISPENSADOR := by
    norm_num [CAPACIDAD_DISPENSADOR]
  refine ⟨?_, ?_, ?_, ?_, ?_, ?_⟩
  · intro d hd
    simp only [inicializar_dispensadores, List.mem_map] at hd
    obtain ⟨nm, _, rfl⟩ := hd
    exact ⟨hcap, le_refl _⟩
  · intro d hd
    have hd' : d ∈ b.dispensadores.map
        (fun d => { d with cantidad := CAPACIDAD_DISPENSADOR }) := hd
    simp only [List.mem_map] at hd'
    obtain ⟨d0, _, rfl⟩ := hd'
    exact ⟨hcap, le_refl _⟩
  · refine consumir_pred ?_ recipe b.dispensadores hb
    intro d hd hc
    refine ⟨?_, ?_⟩
    · show (0 : Int) ≤ d.cantidad - 1
      omega
    · show d.cantidad - 1 ≤ CAPACIDAD_DISPENSADOR
      have := hd.2
      omega
  · refine modifyIdx_pred ?_ b.dispensadores sel hb
    intro d hd
    by_cases hc : d.cantidad < CAPACIDAD_DISPENSADOR
    · rw [if_pos hc]
      refine ⟨?_, ?_⟩
      · show (0 : Int) ≤ d.cantidad + 1
        have := hd.1
        omega
      · show d.cantidad + 1 ≤ CAPACIDAD_DISPENSADOR
        omega
    · rw [if_neg hc]
      exact hd
  · refine modifyIdx_pred ?_ b.dispensadores sel hb
    intro d hd
    by_cases hc : 0 < d.cantidad
    · rw [if_pos hc]
      refine ⟨?_, ?_⟩
      · show (0 : Int) ≤ d.cantidad - 1
        omega
      · show d.cantidad - 1 ≤ CAPACIDAD_DISPENSADOR
        have := hd.2
        omega
    · rw [if_neg hc]
      exact hd
  · refine modifyIdx_pred ?_ b.dispensadores sel hb
    intro d _
    exact ⟨hcap, le_refl _⟩

lemma bajos_eq_of_no_agotados (b : Banda)
    (h : (agotados_de b).length = 0) :
    (b.dispensadores.filter
      (fun d => decide (d.cantidad ≠ 0) &&
        decide (d.cantidad ≤ UMBRAL_INVENTARIO_BAJO))).length = bajos_de b := by
  unfold agotados_de at h
  rw [List.length_eq_zero] at h
  have hnone := List.filter_eq_nil_iff.mp h
  unfold bajos_de
  congr 1
  refine List.filter_congr fun d hd => ?_
  have hne : ¬ d.cantidad = 0 := by
    intro hc
    exact hnone d hd (by simp [hc])
  simp [hne]

/-- C6.  One inventory check on a lane: inside the 30-second debounce window
nothing changes; otherwise with `out` the number of empty dispensers and
`low` the number with count `≤ 2`, `out > 0` appends an alert naming the
out-of-stock ingredients, sets `necesita_reabastecimiento` and stamps the
alert time; else `low ≥ 3` appends the generic low-stock alert, sets the
flag and stamps; else the flag is cleared. -/
theorem verificar_inventario_spec (ahora : Int) (b : Banda) :
    (ahora - b.ultima_alerta_inventario < 30 →
      verificar_inventario_banda ahora b = b) ∧
    (¬ ahora - b.ultima_alerta_inventario < 30 →
      (0 < (agotados_de b).length →
        verificar_inventario_banda ahora b =
          { agregar_log_banda b (LogMsg.alertaSin (b.id + 1)
              ((agotados_de b).map Ingrediente.nombre)) true ahora with
            necesita_reabastecimiento := true,
            ultima_alerta_inventario := ahora }) ∧
      ((agotados_de b).length = 0 → 3 ≤ bajos_de b →
        verificar_inventario_banda ahora b =
          { agregar_log_banda b (LogMsg.avisoReabastecimiento (b.id + 1))
              true ahora with
            necesita_reabastecimiento := true,
            ultima_alerta_inventario := ahora }) ∧
      ((agotados_de b).length = 0 → bajos_de b < 3 →
        verificar_inventario_banda ahora b =
          { b with necesita_reabastecimiento := false })) := by
  constructor
  · intro h
    unfold verificar_inventario_banda
    rw [if_pos h]
  · intro h
    refine ⟨?_, ?_, ?_⟩
    · intro hout
      have hout' : 0 < (b.dispensadores.filter
          (fun d => d.cantidad = 0)).length := hout
      unfold verificar_inventario_banda
      rw [if_neg h]
      dsimp only
      rw [if_pos hout']
      rfl
    · intro hout hlow
      have hout' : ¬ 0 < (b.dispensadores.filter
          (fun d => d.cantidad = 0)).length := by
        have h0 : (b.dispensadores.filter
            (fun d => d.cantidad = 0)).length = 0 := hout
        omega
      have hlow' : 3 ≤ (b.dispensadores.filter
          (fun d => decide (d.cantidad ≠ 0) &&
            decide (d.cantidad ≤ UMBRAL_INVENTARIO_BAJO))).length := by
        rw [bajos_eq_of_no_agotados b hout]
        exact hlow
      unfold verificar_inventario_banda
      rw [if_neg h]
      dsimp only
      rw [if_neg hout', if_pos hlow']
    · intro hout hlow
      have hout' : ¬ 0 < (b.dispensadores.filter
          (fun d => d.cantidad = 0)).length := by
        have h0 : (b.dispensadores.filter
            (fun d => d.cantidad = 0)).length = 0 := hout
        omega
      have hlow' : ¬ 3 ≤ (b.dispensadores.filter
          (fun d => decide (d.cantidad ≠ 0) &&
            decide (d.cantidad ≤ UMBRAL_INVENTARIO_BAJO))).length := by
        rw [bajos_eq_of_no_agotados b hout]
        omega
      unfold verificar_inventario_banda
      rw [if_neg h]
      dsimp only
      rw [if_neg hout', if_neg hlow']

/-- C1.  When the dispatcher dequeues an order and finds no eligible lane:
with the per-attempt counter already incremented, below 20 attempts the
order is re-enqueued at the tail of the FIFO (nothing is printed), while at
20 or more it is dropped with a TIMEOUT message on the process-wide log;
in both cases `total_ordenes_procesadas` is untouched. -/
theorem asignador_sin_banda_spec (ahora : Int) (s : DatosCompartidos)
    (o : Orden) (c' : ColaFIFO)
    (hdq : desencolar_orden s.cola_espera = (some o, c'))
    (hno : encontrar_banda_disponible s.bandas
      { o with intentos_asignacion := o.intentos_asignacion + 1 } = -1)
    (hwf : ColaWF s.cola_espera) :
    (asignador_step ahora s).total_ordenes_procesadas =
      s.total_ordenes_procesadas ∧
    (o.intentos_asignacion + 1 < 20 →
      (asignador_step ahora s).cola_espera =
        encolar_orden c' { o with intentos_asignacion := o.intentos_asignacion + 1 } ∧
      colaToList (asignador_step ahora s).cola_espera =
        colaToList c' ++ [{ o with intentos_asignacion := o.intentos_asignacion + 1 }] ∧
      (asignador_step ahora s).consola = s.consola) ∧
    (¬ o.intentos_asignacion + 1 < 20 →
      (asignador_step ahora s).cola_espera = c' ∧
      (asignador_step ahora s).consola = s.consola ++
        [LogMsg.timeout o.nombre_hamburguesa o.id_orden]) := by
  have hz : s.cola_espera.tamano ≠ 0 := by
    intro h0
    unfold desencolar_orden at hdq
    rw [if_pos h0] at hdq
    exact Option.noConfusion (congrArg Prod.fst hdq)
  have hc' : c' = (desencolar_orden s.cola_espera).2 := by
    rw [hdq]
  have hwfc' : ColaWF c' := hc' ▸ desencolar_wf hwf
  have htam : c'.tamano < MAX_ORDENES := by
    obtain ⟨_, ht, _⟩ := hwf
    rw [hc']
    unfold desencolar_orden
    rw [if_neg hz]
    dsimp only
    simp only [MAX_ORDENES] at ht ⊢
    omega
  have hneg : ¬ (0 : Int) ≤ -1 := by norm_num
  unfold asignador_step
  rw [hdq]
  dsimp only
  rw [hno, if_neg hneg]
  by_cases hint : o.intentos_asignacion + 1 < 20
  · rw [if_pos hint]
    refine ⟨rfl, fun _ => ⟨rfl, ?_, rfl⟩, fun hcontra => absurd hint hcontra⟩
    exact encolar_toList hwfc' htam _
  · rw [if_neg hint]
    exact ⟨rfl, fun hcontra => absurd hcontra hint, fun _ => ⟨rfl, rfl⟩⟩

lemma validar_parametros_sound :
    ∀ (args : List String) (n t o : Int),
      1 ≤ n → n ≤ 10 → 1 ≤ t → t ≤ 60 → 1 ≤ o → o ≤ 300 →
      (∀ (n' t' o' : Int) (msgs : List SalidaMsg),
        validar_parametros args n t o = (some (n', t', o'), msgs) →
        1 ≤ n' ∧ n' ≤ 10 ∧ 1 ≤ t' ∧ t' ≤ 60 ∧ 1 ≤ o' ∧ o' ≤ 300 ∧ msgs = []) ∧
      ((validar_parametros args n t o).1 = none →
        (validar_parametros args n t o).2 ≠ []) := by
  intro args n t o
  induction args, n, t, o using validar_parametros.induct with
  | case1 n t o =>
    intro hn1 hn2 ht1 ht2 ho1 ho2
    constructor
    · intro n' t' o' msgs heq
      simp only [validar_parametros, Prod.mk.injEq, Option.some.injEq] at heq
      obtain ⟨⟨hn, ht, ho⟩, hm⟩ := heq
      subst hn; subst ht; subst ho; subst hm
      exact ⟨hn1, hn2, ht1, ht2, ho1, ho2, rfl⟩
    · intro habs
      simp [validar_parametros] at habs
  | case2 a rest n t o h =>
    intro _ _ _ _ _ _
    have hred : validar_parametros (a :: rest) n t o = (none, [SalidaMsg.ayuda]) := by
      rw [validar_parametros.eq_def]
      simp [h]
    rw [hred]
    exact ⟨fun n' t' o' msgs heq => by simp at heq, fun _ => by simp⟩
  | case3 a n t o h1 h2 =>
    intro _ _ _ _ _ _
    have hred : validar_parametros [a] n t o = (none, [SalidaMsg.errorFaltaBandas]) := by
      rw [validar_parametros.eq_def]
      simp [h1, h2]
    rw [hred]
    exact ⟨fun n' t' o' msgs heq => by simp at heq, fun _ => by simp⟩
  | case4 a n t o h1 h2 v rest' nv hbad =>
    intro _ _ _ _ _ _
    have hnv : nv = atoi v := rfl
    rw [hnv] at hbad
    have hred : validar_parametros (a :: v :: rest') n t o =
        (none, [SalidaMsg.errorBandas]) := by
      rw [validar_parametros.eq_def]
      simp [h1, h2, hbad]
    rw [hred]
    exact ⟨fun n' t' o' msgs heq => by simp at heq, fun _ => by simp⟩
  | case5 a n t o h1 h2 v rest' nv hok ih =>
    intro _ _ ht1 ht2 ho1 ho2
    have hnv : nv = atoi v := rfl
    rw [hnv] at hok
    have hok' := hok
    simp only [Bool.or_eq_true, decide_eq_true_eq, not_or] at hok'
    have hnv1 : 1 ≤ atoi v := by
      have := hok'.1
      omega
    have hnv2 : atoi v ≤ 10 := by
      have := hok'.2
      simp only [MAX_BANDAS] at this
      push_cast at this
      omega
    have ihs := ih (hnv ▸ hnv1) (hnv ▸ hnv2) ht1 ht2 ho1 ho2
    rw [hnv] at ihs
    have hred : validar_parametros (a :: v :: rest') n t o =
        validar_parametros rest' (atoi v) t o := by
      rw [validar_parametros.eq_def]
      simp [h1, h2, hok]
    rw [hred]
    exact ihs
  | case6 a n t o h1 h2 h3 =>
    intro _ _ _ _ _ _
    have hred : validar_parametros [a] n t o =
        (none, [SalidaMsg.errorFaltaTiempoIng]) := by
      rw [validar_parametros.eq_def]
      simp [h1, h2, h3]
    rw [hred]
    exact ⟨fun n' t' o' msgs heq => by simp at heq, fun _ => by simp⟩
  | case7 a n t o h1 h2 h3 v rest' tv hbad =>
    intro _ _ _ _ _ _
    have htv : tv = atoi v := rfl
    rw [htv] at hbad
    have hred : validar_parametros (a :: v :: rest') n t o =
        (none, [SalidaMsg.errorTiempoIng]) := by
      rw [validar_parametros.eq_def]
      simp [h1, h2, h3, hbad]
    rw [hred]
    exact ⟨fun n' t' o' msgs heq => by simp at heq, fun _ => by simp⟩
  | case8 a n t o h1 h2 h3 v rest' tv hok ih =>
    intro hn1 hn2 _ _ ho1 ho2
    have htv : tv = atoi v := rfl
    rw [htv] at hok
    have hok' := hok
    simp only [Bool.or_eq_true, decide_eq_true_eq, not_or] at hok'
    have htv1 : 1 ≤ atoi v := by
      have := hok'.1
      omega
    have htv2 : atoi v ≤ 60 := by
      have := hok'.2
      omega
    have ihs := ih hn1 hn2 (htv ▸ htv1) (htv ▸ htv2) ho1 ho2
    rw [htv] at ihs
    have hred : validar_parametros (a :: v :: rest') n t o =
        validar_parametros rest' n (atoi v) o := by
      rw [validar_parametros.eq_def]
      simp [h1, h2, h3, hok]
    rw [hred]
    exact ihs
  | case9 a n t o h1 h2 h3 h4 =>
    intro _ _ _ _ _ _
    have hred : validar_parametros [a] n t o =
        (none, [SalidaMsg.errorFaltaTiempoOrden]) := by
      rw [validar_parametros.eq_def]
      simp [h1, h2, h3, h4]
    rw [hred]
    exact ⟨fun n' t' o' msgs heq => by simp at heq, fun _ => by simp⟩
  | case10 a n t o h1 h2 h3 h4 v rest' ov hbad =>
    intro _ _ _ _ _ _
    have hov : ov = atoi v := rfl
    rw [hov] at hbad
    have hred : validar_parametros (a :: v :: rest') n t o =
        (none, [SalidaMsg.errorTiempoOrden]) := by
      rw [validar_parametros.eq_def]
      simp [h1, h2, h3, h4, hbad]
    rw [hred]
    exact ⟨fun n' t' o' msgs heq => by simp at heq, fun _ => by simp⟩
  | case11 a n t o h1 h2 h3 h4 v rest' ov hok ih =>
    intro hn1 hn2 ht1 ht2 _ _
    have hov : ov = atoi v := rfl
    rw [hov] at hok
    have hok' := hok
    simp only [Bool.or_eq_true, decide_eq_true_eq, not_or] at hok'
    have hov1 : 1 ≤ atoi v := by
      have := hok'.1
      omega
    have hov2 : atoi v ≤ 300 := by
      have := hok'.2
      omega
    have ihs := ih hn1 hn2 ht1 ht2 (hov ▸ hov1) (hov ▸ hov2)
    rw [hov] at ihs
    have hred : validar_parametros (a :: v :: rest') n t o =
        validar_parametros rest' n t (atoi v) := by
      rw [validar_parametros.eq_def]
      simp [h1, h2, h3, h4, hok]
    rw [hred]
    exact ihs
  | case12 a rest n t o h1 h2 h3 h4 h5 =>
    intro _ _ _ _ _ _
    have hred : validar_parametros (a :: rest) n t o = (none, [SalidaMsg.menuMsg]) := by
      rw [validar_parametros.eq_def]
      simp [h1, h2, h3, h4, h5]
    rw [hred]
    exact ⟨fun n' t' o' msgs heq => by simp at heq, fun _ => by simp⟩
  | case13 a rest n t o h1 h2 h3 h4 h5 =>
    intro _ _ _ _ _ _
    have hred : validar_parametros (a :: rest) n t o =
        (none, [SalidaMsg.desconocido a, SalidaMsg.ayuda]) := by
      rw [validar_parametros.eq_def]
      simp [h1, h2, h3, h4, h5]
    rw [hred]
    exact ⟨fun n' t' o' msgs heq => by simp at heq, fun _ => by simp⟩

/-- C9.  Validation accepts `-n` only for 1–10, `-t` only for 1–60, `-o`
only for 1–300 (defaults 3/2/7); whenever the validator fails — every
invalid or unknown argument — something was printed, and `main` returns
exit code 0 without starting the engine. -/
theorem validar_parametros_cli_spec :
    (∀ (argv : List String) (n t o : Int) (msgs : List SalidaMsg),
      validar_parametros_cli argv = (some (n, t, o), msgs) →
      1 ≤ n ∧ n ≤ 10 ∧ 1 ≤ t ∧ t ≤ 60 ∧ 1 ≤ o ∧ o ≤ 300 ∧ msgs = []) ∧
    validar_parametros_cli [] = (some (3, 2, 7), []) ∧
    (∀ argv : List String, (validar_parametros_cli argv).1 = none →
      main_valida argv = (0, false) ∧ (validar_parametros_cli argv).2 ≠ []) := by
  have hbase := fun args => validar_parametros_sound args 3 2 7
    (by norm_num) (by norm_num) (by norm_num) (by norm_num)
    (by norm_num) (by norm_num)
  have hcli : ∀ args : List String, validar_parametros_cli args =
      validar_parametros args 3 2 7 := fun args => rfl
  refine ⟨?_, ?_, ?_⟩
  · intro argv n t o msgs heq
    rw [hcli] at heq
    exact (hbase argv).1 n t o msgs heq
  · rfl
  · intro argv hnone
    rw [hcli] at hnone
    constructor
    · unfold main_valida
      rw [hcli, hnone]
    · rw [hcli]
      exact (hbase argv).2 hnone

/-- C8 counterexample: on a lane whose paused flag is initially set,
`pause_lane` then `resume_lane` leaves the flag cleared, not at its prior
value — the round-trip of the claim fails for that initial state. -/
theorem pausar_reanudar_contraejemplo :
    decide ((reanudar_banda (pausar_banda bandaPausadaEjemplo)).1.pausada
      = bandaPausadaEjemplo.pausada) = false := by
  decide

/-- C8 (amended).  `pause_lane` then `resume_lane` always leaves the lane
unpaused — hence restores the prior value exactly when the lane was not
already paused; `pause_lane` twice equals once; `resume_lane` is idempotent
on the flag and signals the lane's condition variable when it clears a
paused lane; the control panel toggle performs the matching operation. -/
theorem pausar_reanudar_spec (b : Banda) :
    ((reanudar_banda (pausar_banda b)).1.pausada = false) ∧
    (b.pausada = false →
      (reanudar_banda (pausar_banda b)).1.pausada = b.pausada) ∧
    (pausar_banda (pausar_banda b) = pausar_banda b) ∧
    ((reanudar_banda (reanudar_banda b).1).1 = (reanudar_banda b).1) ∧
    (b.pausada = true → reanudar_banda b = ({ b with pausada := false }, true)) ∧
    (pausar_reanudar_banda b =
      if b.pausada then ({ b with pausada := false }, true)
      else (pausar_banda b, false)) := by
  by_cases hp : b.pausada = true
  · refine ⟨?_, ?_, rfl, ?_, ?_, ?_⟩
    · simp [pausar_banda, reanudar_banda]
    · intro h
      rw [h] at hp
      exact absurd hp (by norm_num)
    · simp [reanudar_banda, hp]
    · intro _
      simp [reanudar_banda, hp]
    · simp [pausar_reanudar_banda, pausar_banda, hp]
  · have hp' : b.pausada = false := Bool.eq_false_iff.mpr hp
    refine ⟨?_, ?_, rfl, ?_, ?_, ?_⟩
    · simp [pausar_banda, reanudar_banda]
    · intro _
      simp [pausar_banda, reanudar_banda, hp']
    · simp [reanudar_banda, hp']
    · intro h
      rw [h] at hp'
      exact absurd hp' (by norm_num)
    · simp [pausar_reanudar_banda, pausar_banda, hp']

/-- C5.  `limpiar_sistema` wakes the lane condition variables, the FIFO's
not-empty CV and `nueva_orden`, but never the not-full CV a producer
blocked inside `encolar_orden` on a full FIFO is parked on: the broadcast
set omits `cola_no_llena` for every lane count. -/
theorem limpiar_sistema_omite_no_llena (num_bandas : Nat) :
    decide (encolar_espera_en ∈ limpiar_sistema_broadcasts num_bandas) = false := by
  rw [decide_eq_false_iff_not]
  unfold limpiar_sistema_broadcasts encolar_espera_en
  intro hmem
  rcases List.mem_append.mp hmem with h | h
  · obtain ⟨i, _, hi⟩ := List.mem_map.mp h
    exact CondVarId.noConfusion hi
  · rcases List.mem_cons.mp h with h' | h'
    · exact CondVarId.noConfusion h'
    · rcases List.mem_cons.mp h' with h'' | h''
      · exact CondVarId.noConfusion h''
      · simp at h''

theorem encolar_desencolar_roundtrip_witness :
    (desencolar_orden (drain (encolar_orden colaVacia ordenEjemplo)
      colaVacia.tamano)).1 = some ordenEjemplo :=
  (encolar_desencolar_roundtrip colaVacia ordenEjemplo
    ⟨by decide, by decide, by decide⟩ (by decide)).1

theorem verificar_ingredientes_iff_witness :
    verificar_ingredientes_banda bandaEjemplo ordenEjemplo = true ↔
      ∀ ing ∈ ordenEjemplo.ingredientes_solicitados,
        ∃ d ∈ bandaEjemplo.dispensadores, d.nombre = ing ∧ 0 < d.cantidad :=
  (verificar_ingredientes_iff bandaEjemplo ordenEjemplo (by decide)).1

theorem procesar_orden_consume_witness :
    (procesar_orden 0 bandaEjemplo ordenEjemplo).2.paso_actual
      = ordenEjemplo.num_ingredientes :=
  (procesar_orden_consume_up_front 0 bandaEjemplo ordenEjemplo (by decide)
    "carne" CAPACIDAD_DISPENSADOR (by decide) (by decide)).2.2.2.2.1

theorem dispensadores_en_rango_witness :
    dispensador_en_rango
      { nombre := "pan_inferior", cantidad := CAPACIDAD_DISPENSADOR } :=
  (dispensadores_en_rango 0 bandaEjemplo 0 [] (by decide)).1 _ (by decide)

theorem asignador_sin_banda_witness :
    (asignador_step 0 datosEjemplo).total_ordenes_procesadas
      = datosEjemplo.total_ordenes_procesadas :=
  (asignador_sin_banda_spec 0 datosEjemplo ordenEjemplo
    (desencolar_orden datosEjemplo.cola_espera).2 rfl rfl
    ⟨by decide, by decide, by decide⟩).1
